import Mathlib

/-!
Shallow embedding of the chunked storage layer in `src/hub/core/chunk.py`.

Bytes are modelled as `Nat`, buffers and payloads as `List Nat` (the byte
values themselves are opaque to the chunk engine).  Python exceptions are
modelled with `Except ChunkError`; every raise in the source occurs before
any mutation of the receiving chunk, so a failed call leaves the chunk value
untouched in this functional embedding exactly as in the source.
The recursive `extend` is embedded with an explicit fuel parameter; the
wrapper `Chunk.extend` supplies `buffer.length + 1` fuel, which is always
sufficient on the paths the source can reach (each recursion level strictly
consumes incoming bytes).
-/

/-- The error conditions raised by `chunk.py` (all are plain `Exception` /
`ValueError` in the source; we separate them by raise site).  `outOfFuel` is
an artefact of the fuel-based embedding and never occurs with adequate fuel. -/
inductive ChunkError where
  | sealed
  | noSpace
  | invalidBatch
  | alreadySpawned
  | notImplemented
  | outOfFuel
deriving DecidableEq

/-- Modelled from the spec: the `ShapeEncoder` class (`hub.core.meta.encode.shape`)
is not among the provided sources; per §4.3 of the spec it is a run-length
store whose batch append records one `(shape, run_length)` run per call. -/
structure ShapeEncoder where
  runs : List (List Nat × Nat)
deriving DecidableEq

/-- Modelled from the spec: `ShapeEncoder.add_shape` appends one run. -/
def ShapeEncoder.add_shape (e : ShapeEncoder) (shape : List Nat) (count : Nat) :
    ShapeEncoder :=
  ⟨e.runs ++ [(shape, count)]⟩

/-- Modelled from the spec: the `BytePositionsEncoder` class
(`hub.core.meta.encode.byte_positions`) is not among the provided sources;
per §4.2 it stores `(bytes_per_sample, run_length)` runs, one per batch append. -/
structure BytePositionsEncoder where
  runs : List (Nat × Nat)
deriving DecidableEq

/-- Modelled from the spec: `BytePositionsEncoder.add_byte_position` appends one run. -/
def BytePositionsEncoder.add_byte_position (e : BytePositionsEncoder)
    (num_bytes_per_sample : Nat) (count : Nat) : BytePositionsEncoder :=
  ⟨e.runs ++ [(num_bytes_per_sample, count)]⟩

/-- Modelled from the spec (§4.2): `num_samples` is the sum of all run lengths. -/
def BytePositionsEncoder.num_samples (e : BytePositionsEncoder) : Nat :=
  (e.runs.map Prod.snd).sum

/-- The `Chunk` state: the two index encoders, capacity, payload, and whether
`next_chunk` is set.  The chunk spawned into `next_chunk` is returned
explicitly by the operations, so the link is modelled as a flag here
(`tobytes` does not serialize it and `extend` only ever tests it for `None`).
`min_data_bytes_target` is set to `max_data_bytes // 2` in `__init__` and
never reassigned, so it is modelled as the derived function below. -/
structure Chunk where
  index_shape_encoder : ShapeEncoder
  index_byte_range_encoder : BytePositionsEncoder
  max_data_bytes : Nat
  data : List Nat
  has_next_chunk : Bool
deriving DecidableEq

/-- `Chunk.__init__`: fresh encoders, empty data, no next chunk. -/
def Chunk.init (max_data_bytes : Nat) : Chunk :=
  ⟨⟨[]⟩, ⟨[]⟩, max_data_bytes, [], false⟩

/-- `self.min_data_bytes_target = max_data_bytes // 2` (set once in `__init__`). -/
def Chunk.min_data_bytes_target (c : Chunk) : Nat :=
  c.max_data_bytes / 2

/-- Property `Chunk.num_samples`. -/
def Chunk.num_samples (c : Chunk) : Nat :=
  c.index_byte_range_encoder.num_samples

/-- Property `Chunk.num_data_bytes`. -/
def Chunk.num_data_bytes (c : Chunk) : Nat :=
  c.data.length

/-- Property `Chunk.has_space`. -/
def Chunk.has_space (c : Chunk) : Bool :=
  c.num_data_bytes < c.min_data_bytes_target

/-- `Chunk._min_chunks_required_for_num_bytes`: `ceil(num_bytes / max_data_bytes)`.
(Only ever called with `max_data_bytes ≥ 1`; the source would raise
`ZeroDivisionError` otherwise, but `extend` guards with `has_space` first.) -/
def Chunk.min_chunks_required_for_num_bytes (c : Chunk) (num_bytes : Nat) : Nat :=
  (num_bytes + c.max_data_bytes - 1) / c.max_data_bytes

/-- `_validate_incoming_buffer`: rejects `num_samples ≤ 0` and buffers whose
length is not divisible by `num_samples` (both `ValueError` in the source). -/
def validate_incoming_buffer (incoming_num_bytes : Nat) (num_samples : Int) :
    Except ChunkError Unit :=
  if num_samples ≤ 0 then .error .invalidBatch
  else if (incoming_num_bytes : Int) % num_samples ≠ 0 then .error .invalidBatch
  else .ok ()

/-- `Chunk._update_headers`: validate, then append one shape run and one
byte-position run.  (`num_samples > 0` after validation, so `Int.toNat` is exact.) -/
def Chunk.update_headers (c : Chunk) (incoming_num_bytes : Nat) (num_samples : Int)
    (sample_shape : List Nat) : Except ChunkError Chunk :=
  match validate_incoming_buffer incoming_num_bytes num_samples with
  | .error e => .error e
  | .ok _ =>
    let num_bytes_per_sample := incoming_num_bytes / num_samples.toNat
    .ok { c with
      index_shape_encoder :=
        c.index_shape_encoder.add_shape sample_shape num_samples.toNat
      index_byte_range_encoder :=
        c.index_byte_range_encoder.add_byte_position num_bytes_per_sample
          num_samples.toNat }

/-- `Chunk._fill`: returns the updated chunk and the number of bytes reported as
processed.  Note the source returns `incoming_num_bytes_that_will_fit` whether
or not the copy branch was taken. -/
def Chunk.fill (c : Chunk) (incoming_buffer : List Nat) : Chunk × Nat :=
  let incoming_num_bytes := incoming_buffer.length
  let min_chunks_for_incoming_bytes :=
    c.min_chunks_required_for_num_bytes incoming_num_bytes
  let min_chunks_for_incoming_and_current_bytes :=
    c.min_chunks_required_for_num_bytes (incoming_num_bytes + c.num_data_bytes)
  let incoming_num_bytes_that_will_fit :=
    min incoming_num_bytes (c.max_data_bytes - c.num_data_bytes)
  if min_chunks_for_incoming_bytes = min_chunks_for_incoming_and_current_bytes then
    ({ c with data := c.data ++ incoming_buffer.take incoming_num_bytes_that_will_fit },
      incoming_num_bytes_that_will_fit)
  else
    (c, incoming_num_bytes_that_will_fit)

/-- `Chunk._spawn_child_chunk`: refuses when `next_chunk` is already set,
otherwise sets the link and returns the fresh child `Chunk(self.max_data_bytes)`. -/
def Chunk.spawn_child_chunk (c : Chunk) : Except ChunkError (Chunk × Chunk) :=
  if c.has_next_chunk then .error .alreadySpawned
  else .ok ({ c with has_next_chunk := true }, Chunk.init c.max_data_bytes)

/-- `Chunk.extend` with explicit fuel.  Returns the updated receiving chunk and
the list of chunks spawned by this call, earliest first, exactly as the source
returns `(child_chunk, *child_chunk_children)`. -/
def Chunk.extendFuel :
    Nat → Chunk → List Nat → Int → List Nat → Bool →
      Except ChunkError (Chunk × List Chunk)
  | 0, _, _, _, _, _ => .error .outOfFuel
  | fuel + 1, c, incoming_buffer, num_samples, sample_shape,
      leftover_buffer_from_previous_chunk =>
    if c.has_next_chunk then .error .sealed
    else if !c.has_space then .error .noSpace
    else
      let incoming_num_bytes := incoming_buffer.length
      let header_step : Except ChunkError Chunk :=
        if leftover_buffer_from_previous_chunk then .ok c
        else c.update_headers incoming_num_bytes num_samples sample_shape
      match header_step with
      | .error e => .error e
      | .ok c₁ =>
        let filled := c₁.fill incoming_buffer
        let c₂ := filled.1
        let processed_num_bytes := filled.2
        if incoming_num_bytes ≤ processed_num_bytes then .ok (c₂, [])
        else
          let forwarding_buffer := incoming_buffer.drop processed_num_bytes
          match c₂.spawn_child_chunk with
          | .error e => .error e
          | .ok (c₃, child_chunk) =>
            match Chunk.extendFuel fuel child_chunk forwarding_buffer num_samples
                sample_shape true with
            | .error e => .error e
            | .ok (child', child_chunk_children) =>
              .ok (c₃, child' :: child_chunk_children)

/-- `Chunk.extend`: the wrapper supplying sufficient fuel. -/
def Chunk.extend (c : Chunk) (incoming_buffer : List Nat) (num_samples : Int)
    (sample_shape : List Nat) (leftover_buffer_from_previous_chunk : Bool) :
    Except ChunkError (Chunk × List Chunk) :=
  Chunk.extendFuel (incoming_buffer.length + 1) c incoming_buffer num_samples
    sample_shape leftover_buffer_from_previous_chunk

/-- `Chunk.frombuffer`: the source calls `super().frombuffer(buffer)` and then
unconditionally executes `raise NotImplementedError` before the `return
instance` line (with a TODO noting `next_chunk` still has to be handled), so
deserialization fails for every input buffer. -/
def Chunk.frombuffer (_buffer : List Nat) : Except ChunkError Chunk :=
  .error .notImplemented

deriving instance DecidableEq for Except

/-- The payload bytes of a chain: the receiving chunk's `data` followed by the
`data` of every spawned chunk, in order. -/
def chainData (c : Chunk) (spawned : List Chunk) : List Nat :=
  c.data ++ (spawned.map Chunk.data).flatten

/-- Scenario B of the spec: a chunk with `max_data_bytes = 100` first receives
40 bytes (one sample), then `extend` is called with an 80-byte buffer. -/
def scenarioB : Except ChunkError (Chunk × List Chunk) :=
  match (Chunk.init 100).extend (List.replicate 40 1) 1 [40] false with
  | .ok (c₁, _) => c₁.extend (List.replicate 80 2) 1 [80] false
  | .error e => .error e

/-- The chain payload produced by Scenario B. -/
def scenarioBChain : Except ChunkError (List Nat) :=
  scenarioB.map fun r => chainData r.1 r.2

/-- Scenario C of the spec: empty chunk with `max_data_bytes = 100`, extended
with a 250-byte buffer of 5 samples of shape `(10, 10)`. -/
def scenarioC : Except ChunkError (Chunk × List Chunk) :=
  (Chunk.init 100).extend (List.range 250) 5 [10, 10] false

-- Sanity example (Scenario A of the spec, not a claim theorem).

example : (Chunk.init 100).extend (List.replicate 60 3) 1 [10, 6] false =
    .ok (⟨⟨[([10, 6], 1)]⟩, ⟨[(60, 1)]⟩, 100, List.replicate 60 3, false⟩, []) := by
  decide

/-- C1: the no-data-loss guarantee fails on the code.  In Scenario B (a chunk
with `max_data_bytes = 100` already holding 40 bytes, extended with a valid
80-byte buffer, `num_samples = 1`), `_fill` takes the fragmentation-avoidance
branch: it copies zero bytes yet still reports 60 bytes as processed, so
`extend` forwards only the last 20 bytes of the buffer to the spawned child.
The chain payload is the 40 pre-existing bytes followed by just 20 of the 80
incoming bytes — 60 incoming bytes are dropped, so the concatenation neither
equals the buffer nor contains it. -/
theorem C1_data_loss :
    scenarioBChain = .ok (List.replicate 40 1 ++ List.replicate 20 2) ∧
    scenarioBChain ≠ .ok (List.replicate 40 1 ++ List.replicate 80 2) ∧
    (List.replicate 40 1 ++ List.replicate 20 2 : List Nat).length = 60 := by
  decide

/-- C2: in the fragmentation-avoidance branch the code does copy zero bytes
into the current chunk (its `data` length stays 40, as claimed), but it does
NOT forward the entire incoming buffer to the spawned child: in Scenario B the
single child ends up holding 20 bytes, not all 80, because `extend` advances
the forwarding offset by the 60 bytes `_fill` reported without copying. -/
theorem C2_partial_forward :
    (scenarioB.map fun r => (r.1.data.length, r.2.map fun ch => ch.data.length)) =
      .ok (40, [20]) ∧
    (scenarioB.map fun r => r.2.map fun ch => ch.data.length) ≠ .ok [80] := by
  decide

set_option maxRecDepth 20000 in
/-- C3: Scenario C behaves exactly as claimed: extending an empty
`max_data_bytes = 100` chunk with a 250-byte buffer (5 samples of shape
`(10, 10)`) copies the first 100 bytes into the receiving chunk, spawns
exactly two children holding the next 100 and the last 50 bytes (chain length
3), records exactly one shape run `((10, 10), 5)` and one byte-range run
`(50, 5)` on the originating chunk only, and leaves both children's indexes
empty. -/
theorem C3_scenario :
    scenarioC = .ok
      (⟨⟨[([10, 10], 5)]⟩, ⟨[(50, 5)]⟩, 100, (List.range 250).take 100, true⟩,
        [⟨⟨[]⟩, ⟨[]⟩, 100, ((List.range 250).drop 100).take 100, true⟩,
          ⟨⟨[]⟩, ⟨[]⟩, 100, (List.range 250).drop 200, false⟩]) := by
  decide

-- Helper lemmas about the individual steps of `extend`, shared by the
-- claim theorems below.

theorem validate_ok_iff (len : Nat) (n : Int) :
    validate_incoming_buffer len n = .ok () ↔ (0 < n ∧ (len : Int) % n = 0) := by
  unfold validate_incoming_buffer
  split
  · simp; omega
  · split <;> simp <;> omega

theorem validate_error_of (len : Nat) (n : Int)
    (h : n ≤ 0 ∨ (len : Int) % n ≠ 0) :
    validate_incoming_buffer len n = .error .invalidBatch := by
  unfold validate_incoming_buffer
  split
  · rfl
  · split
    · rfl
    · omega

theorem update_headers_ok (c : Chunk) (len : Nat) (n : Int) (s : List Nat)
    (c₁ : Chunk) (h : c.update_headers len n s = .ok c₁) :
    c₁.data = c.data ∧ c₁.max_data_bytes = c.max_data_bytes ∧
      c₁.has_next_chunk = c.has_next_chunk := by
  unfold Chunk.update_headers at h
  split at h
  · cases h
  · cases h
    exact ⟨rfl, rfl, rfl⟩

theorem update_headers_isOk (c : Chunk) (len : Nat) (n : Int) (s : List Nat)
    (hn : 0 < n) (hmod : (len : Int) % n = 0) :
    ∃ c₁, c.update_headers len n s = .ok c₁ := by
  unfold Chunk.update_headers
  rw [show validate_incoming_buffer len n = .ok () from
    (validate_ok_iff len n).mpr ⟨hn, hmod⟩]
  exact ⟨_, rfl⟩

theorem update_headers_error_of (c : Chunk) (len : Nat) (n : Int) (s : List Nat)
    (h : n ≤ 0 ∨ (len : Int) % n ≠ 0) :
    c.update_headers len n s = .error .invalidBatch := by
  unfold Chunk.update_headers
  rw [validate_error_of len n h]

theorem fill_fst (c : Chunk) (buf : List Nat) :
    (c.fill buf).1 = c ∨
      (c.fill buf).1 = { c with data := c.data ++ buf.take (c.fill buf).2 } := by
  unfold Chunk.fill
  dsimp only
  split
  · exact Or.inr rfl
  · exact Or.inl rfl

theorem fill_snd (c : Chunk) (buf : List Nat) :
    (c.fill buf).2 = min buf.length (c.max_data_bytes - c.data.length) := by
  unfold Chunk.fill
  dsimp only
  split <;> rfl

theorem fill_preserves (c : Chunk) (buf : List Nat) :
    (c.fill buf).1.max_data_bytes = c.max_data_bytes ∧
      (c.fill buf).1.has_next_chunk = c.has_next_chunk := by
  rcases fill_fst c buf with h | h <;> rw [h] <;> exact ⟨rfl, rfl⟩

theorem fill_data_length (c : Chunk) (buf : List Nat)
    (hc : c.data.length ≤ c.max_data_bytes) :
    (c.fill buf).1.data.length ≤ c.max_data_bytes := by
  rcases fill_fst c buf with h | h <;> rw [h]
  · exact hc
  · simp only [List.length_append, List.length_take, fill_snd]
    omega

theorem spawn_ok (c c₃ child : Chunk)
    (h : c.spawn_child_chunk = .ok (c₃, child)) :
    c.has_next_chunk = false ∧ c₃ = { c with has_next_chunk := true } ∧
      child = Chunk.init c.max_data_bytes := by
  unfold Chunk.spawn_child_chunk at h
  split at h
  · cases h
  · cases h
    refine ⟨?_, rfl, rfl⟩
    rename_i hb
    simpa using hb

theorem spawn_isOk (c : Chunk) (h : c.has_next_chunk = false) :
    c.spawn_child_chunk =
      .ok ({ c with has_next_chunk := true }, Chunk.init c.max_data_bytes) := by
  unfold Chunk.spawn_child_chunk
  simp [h]

/-- Sealed chunks refuse every `extend` call (the check is the first statement
of the source's `extend`, before any mutation). -/
theorem extend_sealed (c : Chunk) (buf : List Nat) (n : Int) (s : List Nat)
    (lo : Bool) (h : c.has_next_chunk = true) :
    c.extend buf n s lo = .error .sealed := by
  unfold Chunk.extend Chunk.extendFuel
  simp [h]

/-- Capacity (and capacity-ceiling) preservation for `extendFuel`, by
induction on the fuel: every successful call keeps the receiving chunk's
payload within `max_data_bytes` and only spawns chunks with the same
`max_data_bytes` whose payloads are within that bound as well. -/
theorem extendFuel_capacity :
    ∀ (fuel : Nat) (c : Chunk) (buf : List Nat) (n : Int) (s : List Nat)
      (lo : Bool) (c' : Chunk) (spawned : List Chunk),
      Chunk.extendFuel fuel c buf n s lo = .ok (c', spawned) →
      c'.max_data_bytes = c.max_data_bytes ∧
        (c.data.length ≤ c.max_data_bytes → c'.data.length ≤ c.max_data_bytes) ∧
        ∀ ch ∈ spawned, ch.max_data_bytes = c.max_data_bytes ∧
          ch.data.length ≤ c.max_data_bytes := by
  intro fuel
  induction fuel with
  | zero =>
    intro c buf n s lo c' spawned h
    cases h
  | succ fuel ih =>
    intro c buf n s lo c' spawned h
    simp only [Chunk.extendFuel] at h
    split at h
    · cases h
    split at h
    · cases h
    split at h
    · cases h
    rename_i c₁ heq
    have hpre : c₁.data = c.data ∧ c₁.max_data_bytes = c.max_data_bytes ∧
        c₁.has_next_chunk = c.has_next_chunk := by
      cases lo with
      | true =>
        have hcc : c = c₁ := by simpa using heq
        subst hcc
        exact ⟨rfl, rfl, rfl⟩
      | false =>
        exact update_headers_ok c buf.length n s c₁ (by simpa using heq)
    obtain ⟨hd₁, hm₁, hn₁⟩ := hpre
    split at h
    · obtain ⟨rfl, rfl⟩ : (c₁.fill buf).1 = c' ∧ [] = spawned := by simpa using h
      refine ⟨?_, ?_, ?_⟩
      · rw [(fill_preserves c₁ buf).1, hm₁]
      · intro hc
        have hfl := fill_data_length c₁ buf (by rw [hd₁, hm₁]; exact hc)
        rw [hm₁] at hfl
        exact hfl
      · intro ch hch
        cases hch
    · rcases hsp : (c₁.fill buf).1.spawn_child_chunk with e | c₃child
      · rw [hsp] at h
        cases h
      obtain ⟨c₃, child⟩ := c₃child
      rw [hsp] at h
      dsimp only at h
      rcases hrec : Chunk.extendFuel fuel child (List.drop (c₁.fill buf).2 buf) n s true
        with e | rec
      · rw [hrec] at h
        cases h
      obtain ⟨child', gkids⟩ := rec
      rw [hrec] at h
      dsimp only at h
      obtain ⟨rfl, rfl⟩ : c₃ = c' ∧ child' :: gkids = spawned := by simpa using h
      obtain ⟨hns, hc₃, hchild⟩ := spawn_ok _ _ _ hsp
      have hm₂ := (fill_preserves c₁ buf).1
      obtain ⟨hmax', hlen', hsp'⟩ := ih _ _ _ _ _ _ _ hrec
      have hchildmax : child.max_data_bytes = c.max_data_bytes := by
        rw [hchild]
        show (c₁.fill buf).1.max_data_bytes = c.max_data_bytes
        rw [hm₂, hm₁]
      have hchildlen : child.data.length = 0 := by rw [hchild]; rfl
      refine ⟨?_, ?_, ?_⟩
      · rw [hc₃]
        show (c₁.fill buf).1.max_data_bytes = c.max_data_bytes
        rw [hm₂, hm₁]
      · intro hc
        rw [hc₃]
        show (c₁.fill buf).1.data.length ≤ c.max_data_bytes
        have hfl := fill_data_length c₁ buf (by rw [hd₁, hm₁]; exact hc)
        rw [hm₁] at hfl
        exact hfl
      · intro ch hch
        rcases List.mem_cons.mp hch with rfl | hch'
        · constructor
          · rw [hmax', hchildmax]
          · have hcl := hlen' (by rw [hchildlen]; exact Nat.zero_le _)
            rw [hchildmax] at hcl
            exact hcl
        · obtain ⟨h1, h2⟩ := hsp' ch hch'
          rw [hchildmax] at h1 h2
          exact ⟨h1, h2⟩

/-- Success of `extendFuel` under the source's preconditions, given more fuel
than incoming bytes: every recursion level consumes at least one byte, because
an unsealed chunk with space always has `max_data_bytes - len(data) ≥ 1` room
reported by `_fill`. -/
theorem extendFuel_isOk :
    ∀ (fuel : Nat) (c : Chunk) (buf : List Nat) (n : Int) (s : List Nat) (lo : Bool),
      c.has_next_chunk = false →
      c.data.length < c.max_data_bytes / 2 →
      (lo = true ∨ (0 < n ∧ (buf.length : Int) % n = 0)) →
      buf.length < fuel →
      ∃ r, Chunk.extendFuel fuel c buf n s lo = .ok r := by
  intro fuel
  induction fuel with
  | zero =>
    intro c buf n s lo _ _ _ hf
    omega
  | succ fuel ih =>
    intro c buf n s lo hnext hspace hvalid hf
    have hsp : c.has_space = true := by
      simp only [Chunk.has_space, Chunk.num_data_bytes, Chunk.min_data_bytes_target,
        decide_eq_true_eq]
      exact hspace
    obtain ⟨c₁, hc₁, hd₁, hm₁, hn₁⟩ :
        ∃ c₁, (if lo then (Except.ok c : Except ChunkError Chunk)
            else c.update_headers buf.length n s) = .ok c₁ ∧
          c₁.data = c.data ∧ c₁.max_data_bytes = c.max_data_bytes ∧
          c₁.has_next_chunk = c.has_next_chunk := by
      cases lo with
      | true => exact ⟨c, rfl, rfl, rfl, rfl⟩
      | false =>
        rcases hvalid with h | ⟨hn, hmod⟩
        · cases h
        obtain ⟨c₁, hc₁⟩ := update_headers_isOk c buf.length n s hn hmod
        obtain ⟨h1, h2, h3⟩ := update_headers_ok c buf.length n s c₁ hc₁
        exact ⟨c₁, by simpa using hc₁, h1, h2, h3⟩
    have hg1 : ¬ (c.has_next_chunk = true) := by simp [hnext]
    have hg2 : ¬ ((!c.has_space) = true) := by simp [hsp]
    simp only [Chunk.extendFuel, if_neg hg1, if_neg hg2]
    rw [hc₁]
    dsimp only
    by_cases hle : buf.length ≤ (c₁.fill buf).2
    · rw [if_pos hle]
      exact ⟨_, rfl⟩
    · rw [if_neg hle]
      have hn₂ : (c₁.fill buf).1.has_next_chunk = false := by
        rw [(fill_preserves c₁ buf).2, hn₁, hnext]
      rw [spawn_isOk _ hn₂]
      dsimp only
      have hm₂ : (c₁.fill buf).1.max_data_bytes = c.max_data_bytes := by
        rw [(fill_preserves c₁ buf).1, hm₁]
      have hfits := fill_snd c₁ buf
      rw [hd₁, hm₁] at hfits
      have hdrop : (List.drop (c₁.fill buf).2 buf).length < fuel := by
        rw [List.length_drop]
        omega
      obtain ⟨r, hr⟩ := ih (Chunk.init ((c₁.fill buf).1.max_data_bytes))
        (List.drop (c₁.fill buf).2 buf) n s true rfl
        (by
          show (0 : Nat) < (Chunk.init ((c₁.fill buf).1.max_data_bytes)).max_data_bytes / 2
          show (0 : Nat) < (c₁.fill buf).1.max_data_bytes / 2
          rw [hm₂]
          omega)
        (Or.inl rfl) hdrop
      obtain ⟨child', gkids⟩ := r
      rw [hr]
      dsimp only
      exact ⟨_, rfl⟩

/-- C5: the round-trip claim fails on the code: `Chunk.frombuffer`
unconditionally raises `NotImplementedError` (the `raise` precedes the
`return instance` line), so `deserialize(serialize(chunk))` never succeeds
for any buffer, in particular for any serialized chunk. -/
theorem C5_frombuffer_unimplemented (buffer : List Nat) :
    Chunk.frombuffer buffer = .error .notImplemented := rfl

/-- C4: the capacity invariant.  A freshly constructed chunk satisfies
`len(data) ≤ max_data_bytes`, and every successful `extend` call on a chunk
satisfying it yields a receiving chunk and spawned chunks all satisfying it
(the fill step at every recursion level respects it, so it also holds at every
intermediate state of the call). -/
theorem C4_capacity (m : Nat) (c : Chunk) (buf : List Nat) (n : Int)
    (s : List Nat) (lo : Bool) (c' : Chunk) (spawned : List Chunk)
    (h : c.extend buf n s lo = .ok (c', spawned))
    (hc : c.data.length ≤ c.max_data_bytes) :
    (Chunk.init m).data.length ≤ m ∧
    c'.data.length ≤ c'.max_data_bytes ∧
    ∀ ch ∈ spawned, ch.data.length ≤ ch.max_data_bytes := by
  obtain ⟨hmax, hlen, hspawn⟩ := extendFuel_capacity _ _ _ _ _ _ _ _ h
  refine ⟨by simp [Chunk.init], ?_, ?_⟩
  · rw [hmax]
    exact hlen hc
  · intro ch hch
    obtain ⟨h1, h2⟩ := hspawn ch hch
    rw [h1]
    exact h2

/-- Witness for C4 at Scenario A: `max_data_bytes = 100`, empty chunk,
60-byte buffer, one sample. -/
theorem C4_capacity_witness :
    (Chunk.init 100).data.length ≤ 100 ∧
    (⟨⟨[([10, 6], 1)]⟩, ⟨[(60, 1)]⟩, 100, List.replicate 60 3, false⟩ : Chunk).data.length ≤
      (⟨⟨[([10, 6], 1)]⟩, ⟨[(60, 1)]⟩, 100, List.replicate 60 3, false⟩ : Chunk).max_data_bytes ∧
    ∀ ch ∈ ([] : List Chunk), ch.data.length ≤ ch.max_data_bytes :=
  C4_capacity 100 (Chunk.init 100) (List.replicate 60 3) 1 [10, 6] false
    ⟨⟨[([10, 6], 1)]⟩, ⟨[(60, 1)]⟩, 100, List.replicate 60 3, false⟩ []
    (by decide) (by decide)

/-- C6: the seal invariant.  Once `next_chunk` is set, every `extend` call —
continuation or not — fails with the sealed-chunk error; the check is the
first statement of the source's `extend`, before any state is touched, and in
this functional embedding a failed call returns only the error, so the
chunk's data, indexes and next link are untouched. -/
theorem C6_sealed (c : Chunk) (buf : List Nat) (n : Int) (s : List Nat)
    (lo : Bool) (h : c.has_next_chunk = true) :
    c.extend buf n s lo = .error .sealed :=
  extend_sealed c buf n s lo h

/-- Witness for C6: a sealed chunk refuses a fresh batch. -/
theorem C6_sealed_witness :
    (⟨⟨[]⟩, ⟨[]⟩, 10, [], true⟩ : Chunk).extend [1, 2] 1 [2] false =
      .error .sealed :=
  C6_sealed ⟨⟨[]⟩, ⟨[]⟩, 10, [], true⟩ [1, 2] 1 [2] false rfl

/-- C7: soft-threshold gating.  A non-continuation `extend` on an unsealed
chunk whose payload is at or past `max_data_bytes // 2` fails with the
no-space error, and `has_space` holds exactly when
`len(data) < max_data_bytes // 2`; the failing call returns before any
mutation. -/
theorem C7_no_space (c : Chunk) (buf : List Nat) (n : Int) (s : List Nat)
    (hseal : c.has_next_chunk = false)
    (hfull : c.max_data_bytes / 2 ≤ c.data.length) :
    c.extend buf n s false = .error .noSpace ∧
    (c.has_space = true ↔ c.data.length < c.max_data_bytes / 2) := by
  have hns : c.has_space = false := by
    simp only [Chunk.has_space, Chunk.num_data_bytes, Chunk.min_data_bytes_target,
      decide_eq_false_iff_not]
    omega
  constructor
  · unfold Chunk.extend Chunk.extendFuel
    simp [hseal, hns]
  · simp only [Chunk.has_space, Chunk.num_data_bytes, Chunk.min_data_bytes_target,
      decide_eq_true_eq]

/-- Witness for C7: a 10-capacity chunk holding 5 bytes refuses a new batch. -/
theorem C7_no_space_witness :
    (⟨⟨[]⟩, ⟨[]⟩, 10, [0, 0, 0, 0, 0], false⟩ : Chunk).extend [1] 1 [1] false =
        .error .noSpace ∧
    ((⟨⟨[]⟩, ⟨[]⟩, 10, [0, 0, 0, 0, 0], false⟩ : Chunk).has_space = true ↔
      (⟨⟨[]⟩, ⟨[]⟩, 10, [0, 0, 0, 0, 0], false⟩ : Chunk).data.length <
        (⟨⟨[]⟩, ⟨[]⟩, 10, [0, 0, 0, 0, 0], false⟩ : Chunk).max_data_bytes / 2) :=
  C7_no_space ⟨⟨[]⟩, ⟨[]⟩, 10, [0, 0, 0, 0, 0], false⟩ [1] 1 [1] rfl (by decide)

/-- C8: batch validation.  On an unsealed chunk with space, a non-continuation
`extend` fails with the invalid-batch error exactly when `num_samples ≤ 0` or
the buffer length is not divisible by `num_samples`; the validation runs
before any header run is appended or payload byte copied, so a failing call
returns with the chunk untouched. -/
theorem C8_batch_validation (c : Chunk) (buf : List Nat) (n : Int) (s : List Nat)
    (hseal : c.has_next_chunk = false)
    (hspace : c.data.length < c.max_data_bytes / 2) :
    c.extend buf n s false = .error .invalidBatch ↔
      (n ≤ 0 ∨ (buf.length : Int) % n ≠ 0) := by
  constructor
  · intro h
    by_contra hcond
    push_neg at hcond
    obtain ⟨r, hr⟩ := extendFuel_isOk (buf.length + 1) c buf n s false hseal hspace
      (Or.inr ⟨by omega, hcond.2⟩) (Nat.lt_succ_self _)
    unfold Chunk.extend at h
    rw [hr] at h
    cases h
  · intro hcond
    have hsp : c.has_space = true := by
      simp only [Chunk.has_space, Chunk.num_data_bytes, Chunk.min_data_bytes_target,
        decide_eq_true_eq]
      exact hspace
    unfold Chunk.extend Chunk.extendFuel
    simp [hseal, hsp, update_headers_error_of c buf.length n s hcond]

/-- Witness for C8 at Scenario D: a 10-byte buffer with `num_samples = 3`. -/
theorem C8_batch_validation_witness :
    ((Chunk.init 100).extend (List.replicate 10 0) 3 [] false =
        .error .invalidBatch) ↔
      ((3 : Int) ≤ 0 ∨ (((List.replicate 10 0 : List Nat).length : Int)) % 3 ≠ 0) :=
  C8_batch_validation (Chunk.init 100) (List.replicate 10 0) 3 [] rfl (by decide)

/-- C9: the chain-structure invariant.  `_spawn_child_chunk` refuses when
`next_chunk` is already set (so a set link is never reassigned; a sealed
chunk's `extend` refuses entirely as well), and on success it only marks the
parent's link and returns a freshly constructed child — empty data, empty
indexes, no successor — carrying the parent's `max_data_bytes`. -/
theorem C9_chain (c c₃ child : Chunk)
    (h : c.spawn_child_chunk = .ok (c₃, child)) :
    (c.has_next_chunk = false ∧
      c₃ = { c with has_next_chunk := true } ∧
      child = Chunk.init c.max_data_bytes ∧
      child.data = [] ∧
      child.index_shape_encoder.runs = [] ∧
      child.index_byte_range_encoder.runs = [] ∧
      child.has_next_chunk = false ∧
      child.max_data_bytes = c.max_data_bytes) ∧
    (∀ d : Chunk, d.has_next_chunk = true →
      d.spawn_child_chunk = .error .alreadySpawned) ∧
    (∀ (d : Chunk) (buf : List Nat) (n : Int) (s : List Nat) (lo : Bool)
      (d' : Chunk) (spawned : List Chunk),
      d.extend buf n s lo = .ok (d', spawned) →
      ∀ ch ∈ spawned, ch.max_data_bytes = d.max_data_bytes) := by
  obtain ⟨h1, h2, h3⟩ := spawn_ok c c₃ child h
  refine ⟨⟨h1, h2, h3, ?_, ?_, ?_, ?_, ?_⟩, ?_, ?_⟩
  · rw [h3]; rfl
  · rw [h3]; rfl
  · rw [h3]; rfl
  · rw [h3]; rfl
  · rw [h3]; rfl
  · intro d hd
    unfold Chunk.spawn_child_chunk
    simp [hd]
  · intro d buf n s lo d' spawned hd ch hch
    exact ((extendFuel_capacity _ _ _ _ _ _ _ _ hd).2.2 ch hch).1

/-- Witness for C9: spawning from a fresh 10-capacity chunk. -/
theorem C9_chain_witness :
    ((Chunk.init 10).has_next_chunk = false ∧
      (⟨⟨[]⟩, ⟨[]⟩, 10, [], true⟩ : Chunk) =
        { Chunk.init 10 with has_next_chunk := true } ∧
      Chunk.init 10 = Chunk.init (Chunk.init 10).max_data_bytes ∧
      (Chunk.init 10).data = [] ∧
      (Chunk.init 10).index_shape_encoder.runs = [] ∧
      (Chunk.init 10).index_byte_range_encoder.runs = [] ∧
      (Chunk.init 10).has_next_chunk = false ∧
      (Chunk.init 10).max_data_bytes = (Chunk.init 10).max_data_bytes) ∧
    (∀ d : Chunk, d.has_next_chunk = true →
      d.spawn_child_chunk = .error .alreadySpawned) ∧
    (∀ (d : Chunk) (buf : List Nat) (n : Int) (s : List Nat) (lo : Bool)
      (d' : Chunk) (spawned : List Chunk),
      d.extend buf n s lo = .ok (d', spawned) →
      ∀ ch ∈ spawned, ch.max_data_bytes = d.max_data_bytes) :=
  C9_chain (Chunk.init 10) ⟨⟨[]⟩, ⟨[]⟩, 10, [], true⟩ (Chunk.init 10) (by decide)

/-- C10: degenerate capacity.  A chunk whose `max_data_bytes` is at most 1 has
`min_data_bytes_target = 0`, hence `has_space` is false whatever its payload
(including empty), and every `extend` call on it while its next link is unset
— which is how such a chunk is constructed and must remain, since it can
never successfully extend and so never spawns — fails with the no-space
error; it can never store any bytes. -/
theorem C10_degenerate (c : Chunk) (buf : List Nat) (n : Int) (s : List Nat)
    (lo : Bool) (hm : c.max_data_bytes ≤ 1) (hseal : c.has_next_chunk = false) :
    c.min_data_bytes_target = 0 ∧ c.has_space = false ∧
    c.extend buf n s lo = .error .noSpace := by
  have h0 : c.max_data_bytes / 2 = 0 := by omega
  have hns : c.has_space = false := by
    simp only [Chunk.has_space, Chunk.num_data_bytes, Chunk.min_data_bytes_target,
      decide_eq_false_iff_not, h0]
    omega
  refine ⟨h0, hns, ?_⟩
  unfold Chunk.extend Chunk.extendFuel
  simp [hseal, hns]

/-- Witness for C10: the very first `extend` on a brand-new chunk with
`max_data_bytes = 1` already fails. -/
theorem C10_degenerate_witness :
    (Chunk.init 1).min_data_bytes_target = 0 ∧
    (Chunk.init 1).has_space = false ∧
    (Chunk.init 1).extend [7] 1 [1] false = .error .noSpace :=
  C10_degenerate (Chunk.init 1) [7] 1 [1] false (by decide) rfl
